import Mathlib

/-!
Verification of the chunker core of the `CoT_official` repository
(`python-template-generator/loaders/chunker/` and
`python-template-generator/loaders/full_enhanced_enricher.py`).

The embedding keeps the source's structure: Python string and list
operations are modelled by explicit helper functions with Python slicing
semantics, the external `tiktoken` tokenizer is an abstract
encode/decode pair (`TokenCounter`), and every loop of the source is a
fuel-indexed recursion returning `none` exactly when the Python loop
would still be running after the fuel bound (total fuel sufficiency is
proved where claims need it).
-/

/-! ## Python string and list primitives -/

/-- Python list slice `l[s:e]` for `0 ≤ s`, `0 ≤ e`. -/
def pySlice (l : List α) (s e : Nat) : List α :=
  (l.take e).drop s

/-- Python tail slice `l[-n:]` for `n ≥ 0` (`l[-0:]` is the whole list). -/
def pyTail (l : List α) (n : Nat) : List α :=
  if n = 0 then l else l.drop (l.length - n)

/-- Does `pat` occur as a prefix of `l`? (computable `isPrefixOf`). -/
def listIsPre (pat l : List Char) : Bool :=
  match pat, l with
  | [], _ => true
  | _ :: _, [] => false
  | p :: ps, c :: cs => p == c && listIsPre ps cs

/-- Does `pat` occur as a contiguous sublist of `l`? Python `pat in l`
(the empty pattern occurs everywhere, as in Python). -/
def listContainsSub (l pat : List Char) : Bool :=
  match l with
  | [] => listIsPre pat []
  | _ :: cs => listIsPre pat l || listContainsSub cs pat

/-- Python `needle in hay` on strings. -/
def strContains (hay needle : String) : Bool :=
  listContainsSub hay.data needle.data

/-- Python `s.startswith(p)`. -/
def strStarts (s p : String) : Bool :=
  listIsPre p.data s.data

/-- Fuel-indexed worker for Python `str.split(sep)` with a non-empty
separator: scan left to right, cutting at each occurrence of `sep`. -/
def pySplitGo (sep : List Char) (cur : List Char) : Nat → List Char → List (List Char)
  | 0, _ => []
  | _ + 1, [] => [cur]
  | fuel + 1, c :: cs =>
    if listIsPre sep (c :: cs) then
      cur :: pySplitGo sep [] fuel ((c :: cs).drop sep.length)
    else
      pySplitGo sep (cur ++ [c]) fuel cs

/-- Python `s.split(sep)` (non-empty separator). -/
def pySplitStr (s sep : String) : List String :=
  (pySplitGo sep.data [] (s.data.length + 1) s.data).map (fun l => ⟨l⟩)

/-- Python `sep.join(parts)`. -/
def pyJoin (sep : String) : List String → String
  | [] => ""
  | [p] => p
  | p :: ps => p ++ sep ++ pyJoin sep ps

/-- Python `s.strip()`: remove leading and trailing whitespace. -/
def pyStrip (s : String) : String :=
  ⟨((s.data.dropWhile Char.isWhitespace).reverse.dropWhile Char.isWhitespace).reverse⟩

/-- Python `s.upper()` (ASCII view, via `Char.toUpper`). -/
def pyUpper (s : String) : String :=
  ⟨s.data.map Char.toUpper⟩

/-- Python `s.lower()` (ASCII view, via `Char.toLower`). -/
def pyLower (s : String) : String :=
  ⟨s.data.map Char.toLower⟩

/-! ## Token accounting unit (`token_counter.py`)

`tiktoken` is external to the repository: it is modelled as an abstract
encoder/decoder pair.  `TokenCounter.count` is `len(self.encoder.encode(text))`
(the `_cache` of the source is a memoisation of exactly this value). -/

/-- The tokenizer behind `TokenCounter` (`tiktoken.get_encoding(...)`),
abstract encode/decode pair. -/
structure TokenCounter where
  encode : String → List Nat
  decode : List Nat → String

/-- `TokenCounter.count`: `len(self.encoder.encode(text))` (the cache in
the source memoises this value and does not change it). -/
def TokenCounter.count (tc : TokenCounter) (text : String) : Nat :=
  (tc.encode text).length

/-- A concrete tokenizer for witnesses: one token per character
(round-trips in both directions on ordinary text). -/
def charTok : TokenCounter where
  encode s := s.data.map Char.toNat
  decode l := ⟨l.map Char.ofNat⟩

/-- Worker for a two-characters-per-token witness tokenizer. -/
def pairEncode : List Char → List Nat
  | [] => []
  | [c] => [c.toNat]
  | c1 :: c2 :: rest => (c1.toNat * 2097152 + c2.toNat + 2097152) :: pairEncode rest

/-- Decoder for `pairEncode`. -/
def pairDecode (l : List Nat) : List Char :=
  l.flatMap (fun n =>
    if n < 2097152 then [Char.ofNat n]
    else [Char.ofNat ((n - 2097152) / 2097152), Char.ofNat ((n - 2097152) % 2097152)])

/-- A concrete tokenizer for witnesses: two characters per token. -/
def pairTok : TokenCounter where
  encode s := pairEncode s.data
  decode l := ⟨pairDecode l⟩

/-- The overlap clamp of `split_at_token_limit`
(`overlap_tokens = min(overlap_tokens, max_tokens - 1)`, Python integer
arithmetic, so the value is `-1` when `max_tokens = 0`). -/
def effectiveOverlap (maxTokens overlapTokens : Nat) : Int :=
  min (overlapTokens : Int) ((maxTokens : Int) - 1)

/-- `end = min(start + max_tokens, len(tokens))` of the split loop. -/
def splitEnd (tokens : List Nat) (maxTokens start : Nat) : Nat :=
  min (start + maxTokens) tokens.length

/-- The chunk extracted in one iteration of the split loop:
`tokens[start:end]`, widened to `tokens[max(0, start - overlap):end]`
when `start > 0 and overlap_tokens > 0`. -/
def splitChunk (tokens : List Nat) (maxTokens : Nat) (eff : Int) (start : Nat) : List Nat :=
  if 0 < start ∧ 0 < eff then
    pySlice tokens ((start : Int) - eff).toNat (splitEnd tokens maxTokens start)
  else pySlice tokens start (splitEnd tokens maxTokens start)

/-- The new `start` after one iteration:
`max(start + 1, end - overlap_tokens)` when overlap is active and the end
has not been reached, else `end`. -/
def splitNext (tokens : List Nat) (maxTokens : Nat) (eff : Int) (start : Nat) : Nat :=
  if 0 < eff ∧ splitEnd tokens maxTokens start < tokens.length then
    (max ((start : Int) + 1) ((splitEnd tokens maxTokens start : Int) - eff)).toNat
  else splitEnd tokens maxTokens start

/-- The `while start < len(tokens)` loop of `split_at_token_limit`
(`token_counter.py` lines 105-133), fuel-indexed.  `none` means the fuel
ran out (never happens for the fuel used below, see
`splitLoop_total`). `prevStart` is the source's `prev_start` safety
variable, initially `-1`. -/
def splitLoop (tokens : List Nat) (maxTokens : Nat) (eff : Int) :
    Nat → Nat → Int → Option (List (List Nat))
  | 0, _, _ => none
  | fuel + 1, start, prevStart =>
    if start < tokens.length then
      -- safety check for infinite loop
      if (start : Int) = prevStart then some []
      else
        (splitLoop tokens maxTokens eff fuel (splitNext tokens maxTokens eff start)
            (start : Int)).map (splitChunk tokens maxTokens eff start :: ·)
    else some []

/-- `TokenCounter.split_at_token_limit` (`token_counter.py` lines 80-135).
Returns `some chunks`; `none` would mean the loop failed to finish within
`len(tokens) + 2` iterations, which `splitLoop_total` rules out. -/
def TokenCounter.splitAtTokenLimit (tc : TokenCounter) (text : String)
    (maxTokens overlapTokens : Nat) : Option (List String) :=
  let tokens := tc.encode text
  if tokens.length ≤ maxTokens then some [text]
  else
    (splitLoop tokens maxTokens (effectiveOverlap maxTokens overlapTokens)
        (tokens.length + 2) 0 (-1)).map (List.map tc.decode)

/-! ### Lemmas about the split loop -/

/-- The window start never moves backwards. -/
theorem splitNext_ge (tokens : List Nat) (maxTokens : Nat) (eff : Int) (start : Nat)
    (h : start < tokens.length) : start ≤ splitNext tokens maxTokens eff start := by
  unfold splitNext splitEnd
  split
  · have h1 : ((start : Int) + 1) ≤ max ((start : Int) + 1)
        ((min (start + maxTokens) tokens.length : Nat) - eff) := le_max_left _ _
    omega
  · omega

/-- The loop always finishes within `tokens.length - start + 2` iterations:
either the window start strictly advances, or the `prev_start` safety check
fires on the next iteration. -/
theorem splitLoop_total (tokens : List Nat) (maxTokens : Nat) (eff : Int) :
    ∀ fuel start prevStart, tokens.length - start + 2 ≤ fuel →
      ∃ r, splitLoop tokens maxTokens eff fuel start prevStart = some r := by
  intro fuel
  induction fuel with
  | zero => intro start prevStart h; omega
  | succ fuel ih =>
    intro start prevStart h
    by_cases hlt : start < tokens.length
    · by_cases hprev : (start : Int) = prevStart
      · exact ⟨[], by simp [splitLoop, hlt, hprev]⟩
      · have hge := splitNext_ge tokens maxTokens eff start hlt
        have hrec : ∃ r, splitLoop tokens maxTokens eff fuel
            (splitNext tokens maxTokens eff start) (start : Int) = some r := by
          by_cases hadv : start < splitNext tokens maxTokens eff start
          · exact ih _ (start : Int) (by omega)
          · -- no progress: the next iteration hits the safety check
            have hns : splitNext tokens maxTokens eff start = start := by omega
            have hfuel1 : 1 ≤ fuel := by omega
            obtain ⟨fuel', rfl⟩ : ∃ f, fuel = f + 1 := ⟨fuel - 1, by omega⟩
            rw [hns]
            exact ⟨[], by simp [splitLoop, hlt]⟩
        obtain ⟨r, hr⟩ := hrec
        exact ⟨splitChunk tokens maxTokens eff start :: r,
          by simp only [splitLoop, if_pos hlt, if_neg hprev, hr, Option.map_some']⟩
    · exact ⟨[], by simp [splitLoop, hlt]⟩

/-- When the loop starts inside the token list with a fresh `prev_start`,
the result carries at least one chunk. -/
theorem splitLoop_length_pos (tokens : List Nat) (maxTokens : Nat) (eff : Int)
    (fuel start : Nat) (prevStart : Int) (r : List (List Nat))
    (hlt : start < tokens.length) (hprev : (start : Int) ≠ prevStart)
    (h : splitLoop tokens maxTokens eff (fuel + 1) start prevStart = some r) :
    1 ≤ r.length := by
  simp only [splitLoop, if_pos hlt, if_neg hprev] at h
  rw [Option.map_eq_some'] at h
  obtain ⟨a, _, ha⟩ := h
  simp [← ha]

/-- Length of a Python slice. -/
theorem pySlice_length (l : List α) (s e : Nat) :
    (pySlice l s e).length = min e l.length - s := by
  simp [pySlice]

/-- Each extracted window holds at most `max_tokens` tokens plus the
(clamped, active) overlap. -/
theorem splitChunk_length_le (tokens : List Nat) (maxTokens : Nat) (eff : Int) (start : Nat) :
    (splitChunk tokens maxTokens eff start).length ≤ maxTokens + eff.toNat := by
  unfold splitChunk splitEnd
  split
  · rename_i hcase
    have h1 : (start : Int) - eff ≤ (((start : Int) - eff).toNat : Int) := Int.self_le_toNat _
    rw [pySlice_length]
    omega
  · rw [pySlice_length]
    omega

/-- Every chunk the loop emits fits in `max_tokens + overlap` tokens. -/
theorem splitLoop_chunks_le (tokens : List Nat) (maxTokens : Nat) (eff : Int) :
    ∀ fuel start prevStart r, splitLoop tokens maxTokens eff fuel start prevStart = some r →
      ∀ c ∈ r, c.length ≤ maxTokens + eff.toNat := by
  intro fuel
  induction fuel with
  | zero => intro start prevStart r h; simp [splitLoop] at h
  | succ fuel ih =>
    intro start prevStart r h c hc
    by_cases hlt : start < tokens.length
    · by_cases hprev : (start : Int) = prevStart
      · simp [splitLoop, hlt, hprev] at h
        subst h; simp at hc
      · simp only [splitLoop, if_pos hlt, if_neg hprev, Option.map_eq_some'] at h
        obtain ⟨a, ha, rfl⟩ := h
        rcases List.mem_cons.mp hc with rfl | hmem
        · exact splitChunk_length_le tokens maxTokens eff start
        · exact ih _ _ a ha c hmem
    · simp [splitLoop, hlt] at h
      subst h; simp at hc

/-- The clamped overlap as a natural number. -/
theorem effectiveOverlap_toNat (maxTokens overlapTokens : Nat) :
    (effectiveOverlap maxTokens overlapTokens).toNat = min overlapTokens (maxTokens - 1) := by
  unfold effectiveOverlap
  omega

/-- C1 (amended).  The claim "every chunk returned by
`split_at_token_limit(text, m, overlap_tokens)` has at most `m` tokens"
fails: windows after the first are widened by the overlap prefix
(`chunk_tokens = tokens[overlap_start:end]`).  What holds is the amended
bound: each returned chunk is either the whole text (fitting in `m`
tokens) or decodes from a token window of at most
`m + min(overlap_tokens, m - 1)` tokens. -/
theorem splitAtTokenLimit_chunk_token_bound (tc : TokenCounter) (text : String)
    (maxTokens overlapTokens : Nat) (cs : List String)
    (h : tc.splitAtTokenLimit text maxTokens overlapTokens = some cs) :
    ∀ c ∈ cs, (c = text ∧ tc.count text ≤ maxTokens) ∨
      ∃ ts : List Nat, c = tc.decode ts ∧
        ts.length ≤ maxTokens + min overlapTokens (maxTokens - 1) := by
  intro c hc
  unfold TokenCounter.splitAtTokenLimit at h
  by_cases hfit : (tc.encode text).length ≤ maxTokens
  · left
    simp only [if_pos hfit, Option.some_inj] at h
    subst h
    simp at hc
    exact ⟨hc, hfit⟩
  · right
    simp only [if_neg hfit, Option.map_eq_some'] at h
    obtain ⟨r, hr, rfl⟩ := h
    obtain ⟨ts, hts, rfl⟩ := List.mem_map.mp hc
    refine ⟨ts, rfl, ?_⟩
    have := splitLoop_chunks_le (tc.encode text) maxTokens
      (effectiveOverlap maxTokens overlapTokens) _ _ _ r hr ts hts
    rwa [effectiveOverlap_toNat] at this

/-- C1 counterexample: with `text = "abcd"` under the one-character-per-token
tokenizer, `max_tokens = 2` and `overlap_tokens = 1`, the middle returned
chunk `"abc"` counts 3 tokens, exceeding the budget `m = 2`. -/
theorem splitAtTokenLimit_chunk_over_budget :
    charTok.splitAtTokenLimit "abcd" 2 1 = some ["ab", "abc", "bcd"] ∧
    charTok.count "abc" = 3 ∧ ¬ charTok.count "abc" ≤ 2 := by
  refine ⟨by decide, by decide, by decide⟩

/-- C1 witness: the amended bound evaluated on the counterexample run —
the chunk `"abc"` decodes from a 3-token window, within
`2 + min 1 (2 - 1) = 3`. -/
theorem splitAtTokenLimit_chunk_token_bound_witness :
    ("abc" = "abcd" ∧ charTok.count "abcd" ≤ 2) ∨
      ∃ ts : List Nat, "abc" = charTok.decode ts ∧ ts.length ≤ 2 + min 1 (2 - 1) :=
  splitAtTokenLimit_chunk_token_bound charTok "abcd" 2 1 ["ab", "abc", "bcd"]
    (by decide) "abc" (by decide)

/-- For a positive budget the window start strictly advances. -/
theorem splitNext_gt (tokens : List Nat) (maxTokens : Nat) (eff : Int) (start : Nat)
    (hmax : 1 ≤ maxTokens) (h : start < tokens.length) :
    start < splitNext tokens maxTokens eff start := by
  unfold splitNext splitEnd
  split
  · have h1 : ((start : Int) + 1) ≤ max ((start : Int) + 1)
        ((min (start + maxTokens) tokens.length : Nat) - eff) := le_max_left _ _
    omega
  · omega

/-- C6: for any text, any `max_tokens ≥ 1` and any `overlap_tokens`
(including `overlap_tokens ≥ max_tokens`), `split_at_token_limit`
terminates with at least one chunk; the window start strictly advances
each iteration; the overlap is clamped to `max_tokens - 1` first, so
`max_tokens = 50` with `overlap_tokens = 60` runs with effective
overlap 49. -/
theorem splitAtTokenLimit_terminates (tc : TokenCounter) (text : String)
    (maxTokens overlapTokens : Nat) (hmax : 1 ≤ maxTokens) :
    (∃ cs, tc.splitAtTokenLimit text maxTokens overlapTokens = some cs ∧ 1 ≤ cs.length) ∧
    (∀ start, start < (tc.encode text).length →
      start < splitNext (tc.encode text) maxTokens
        (effectiveOverlap maxTokens overlapTokens) start) ∧
    effectiveOverlap 50 60 = 49 := by
  refine ⟨?_, fun start h => splitNext_gt (tc.encode text) maxTokens
    (effectiveOverlap maxTokens overlapTokens) start hmax h, by decide⟩
  unfold TokenCounter.splitAtTokenLimit
  by_cases hfit : (tc.encode text).length ≤ maxTokens
  · exact ⟨[text], by simp [hfit]⟩
  · have hpos : 0 < (tc.encode text).length := by omega
    obtain ⟨r, hr⟩ := splitLoop_total (tc.encode text) maxTokens
      (effectiveOverlap maxTokens overlapTokens) ((tc.encode text).length + 2) 0 (-1)
      (by omega)
    have hlen : 1 ≤ r.length := by
      have h2 : (tc.encode text).length + 2 = ((tc.encode text).length + 1) + 1 := rfl
      rw [h2] at hr
      exact splitLoop_length_pos _ _ _ _ 0 (-1) r hpos (by simp) hr
    refine ⟨r.map tc.decode, ?_, by simpa using hlen⟩
    simp [hfit, hr]

/-- C6 witness: a concrete run with `max_tokens = 50`, `overlap_tokens = 60`. -/
theorem splitAtTokenLimit_terminates_witness :
    (∃ cs, charTok.splitAtTokenLimit "abcd" 50 60 = some cs ∧ 1 ≤ cs.length) ∧
    (∀ start, start < (charTok.encode "abcd").length →
      start < splitNext (charTok.encode "abcd") 50 (effectiveOverlap 50 60) start) ∧
    effectiveOverlap 50 60 = 49 :=
  splitAtTokenLimit_terminates charTok "abcd" 50 60 (by decide)

/-! ## Data model (`models.py`) -/

/-- `ChunkType` (`models.py` lines 9-18). -/
inductive ChunkType where
  | TEXT | CODE | MIXED | SECTION_HEADER | REQUIREMENT | CHECKLIST | TABLE
deriving DecidableEq, Repr

/-- `ChunkMetadata` (`models.py` lines 21-49).  The field `section` of the
source is named `section_name` here (`section` is a Lean keyword); the
wall-clock field `created_at` (`datetime.now()`) is outside the embedding. -/
structure ChunkMetadata where
  source_file : String
  section_name : Option String := none
  subsection : Option String := none
  has_code : Bool := false
  code_languages : List String := []
  example_types : List String := []
  start_line : Option Int := none
  end_line : Option Int := none
  chunk_index : Nat
  total_chunks : Nat
  topics : List String := []
  keywords : List String := []
  processing_version : String := "0.1.0"
deriving DecidableEq, Repr

/-- `Chunk` (`models.py` lines 52-96). -/
structure Chunk where
  chunk_id : String
  content : String
  chunk_type : ChunkType
  token_count : Nat
  encoding_model : String := "cl100k_base"
  overlap_prev : Option String := none
  overlap_next : Option String := none
  overlap_token_count : Nat := 0
  prev_chunk_id : Option String := none
  next_chunk_id : Option String := none
  parent_chunk_id : Option String := none
  metadata : ChunkMetadata
deriving DecidableEq, Repr

/-- `ChunkingConfig` (`models.py` lines 145-158). -/
structure ChunkingConfig where
  max_tokens : Nat := 512
  overlap_tokens : Nat := 50
  preserve_code_blocks : Bool := true
  preserve_sections : Bool := false
  min_chunk_tokens : Nat := 50
  encoding_model : String := "cl100k_base"
  respect_sentence_boundaries : Bool := true
  respect_paragraph_boundaries : Bool := true
  include_metadata_in_chunk : Bool := true
deriving DecidableEq, Repr

/-- `ChunkingConfig.validate_config` (`models.py` lines 160-166): raises
`ValueError` on `overlap_tokens >= max_tokens` or
`min_chunk_tokens > max_tokens`, else returns `True`. -/
def ChunkingConfig.validateConfig (c : ChunkingConfig) : Except String Bool :=
  if c.max_tokens ≤ c.overlap_tokens then
    Except.error "Overlap tokens must be less than max tokens"
  else if c.max_tokens < c.min_chunk_tokens then
    Except.error "Min chunk tokens must be less than max tokens"
  else Except.ok true

/-- `BaseChunker.__init__` (`base_chunker.py` lines 32-41): store
`config or ChunkingConfig()` and validate it before any document is
processed; an invalid config propagates the `ValueError`. The result is
the chunker's `self.config`. -/
def baseChunkerInit (config : Option ChunkingConfig) : Except String ChunkingConfig :=
  let c := config.getD {}
  match c.validateConfig with
  | Except.error e => Except.error e
  | Except.ok _ => Except.ok c

/-- `SemanticChunker.__init__` (`semantic_chunker.py` lines 21-31):
`super().__init__(config)` then, when a config object was supplied,
`config.preserve_code_blocks = True` mutates that same object in place
(the chunker's `self.config` aliases it).  The result is the state of the
caller's config object (equally `self.config`) after construction. -/
def semanticChunkerInit (config : Option ChunkingConfig) : Except String ChunkingConfig :=
  match baseChunkerInit config with
  | Except.error e => Except.error e
  | Except.ok c =>
    match config with
    | some c0 => Except.ok { c0 with preserve_code_blocks := true }
    | none => Except.ok c

/-- C7: construction rejects `overlap_tokens ≥ max_tokens` and
`min_chunk_tokens > max_tokens` with a configuration error before any
processing, and accepts any config with `overlap_tokens < max_tokens` and
`min_chunk_tokens ≤ max_tokens`. -/
theorem baseChunkerInit_validates (c : ChunkingConfig) :
    ((c.max_tokens ≤ c.overlap_tokens ∨ c.max_tokens < c.min_chunk_tokens) →
      ∃ msg, baseChunkerInit (some c) = Except.error msg) ∧
    (c.overlap_tokens < c.max_tokens → c.min_chunk_tokens ≤ c.max_tokens →
      baseChunkerInit (some c) = Except.ok c) := by
  constructor
  · intro hbad
    unfold baseChunkerInit ChunkingConfig.validateConfig
    rcases hbad with h | h
    · exact ⟨"Overlap tokens must be less than max tokens", by simp [h]⟩
    · by_cases h2 : c.max_tokens ≤ c.overlap_tokens
      · exact ⟨"Overlap tokens must be less than max tokens", by simp [h2]⟩
      · exact ⟨"Min chunk tokens must be less than max tokens", by simp [h2, h]⟩
  · intro h1 h2
    unfold baseChunkerInit ChunkingConfig.validateConfig
    simp [Nat.not_le.mpr h1, Nat.not_lt.mpr h2]

/-- C7 witness: `overlap 60 ≥ max 50` is rejected; the default config
(`max 512`, `overlap 50`, `min 50`) is accepted. -/
theorem baseChunkerInit_validates_witness :
    (∃ msg, baseChunkerInit (some { max_tokens := 50, overlap_tokens := 60 }) =
      Except.error msg) ∧
    baseChunkerInit (some {}) = Except.ok {} :=
  ⟨(baseChunkerInit_validates { max_tokens := 50, overlap_tokens := 60 }).1
      (Or.inl (by decide)),
    (baseChunkerInit_validates {}).2 (by decide) (by decide)⟩

/-- C10: constructing a `SemanticChunker` with an explicitly supplied
(valid) config rewrites that caller-owned config's
`preserve_code_blocks` to `True` — silently overriding a caller-supplied
`False` — and leaves every other field unchanged. -/
theorem semanticChunkerInit_forces_preserve (c : ChunkingConfig)
    (hvalid : c.validateConfig = Except.ok true) :
    semanticChunkerInit (some c) = Except.ok { c with preserve_code_blocks := true } ∧
    ∀ c', semanticChunkerInit (some c) = Except.ok c' →
      c'.preserve_code_blocks = true ∧
      c'.max_tokens = c.max_tokens ∧
      c'.overlap_tokens = c.overlap_tokens ∧
      c'.preserve_sections = c.preserve_sections ∧
      c'.min_chunk_tokens = c.min_chunk_tokens ∧
      c'.encoding_model = c.encoding_model ∧
      c'.respect_sentence_boundaries = c.respect_sentence_boundaries ∧
      c'.respect_paragraph_boundaries = c.respect_paragraph_boundaries ∧
      c'.include_metadata_in_chunk = c.include_metadata_in_chunk := by
  have hinit : baseChunkerInit (some c) = Except.ok c := by
    unfold baseChunkerInit
    simp [hvalid]
  constructor
  · unfold semanticChunkerInit
    rw [hinit]
  · intro c' hc'
    unfold semanticChunkerInit at hc'
    rw [hinit] at hc'
    simp only [Except.ok.injEq] at hc'
    subst hc'
    exact ⟨rfl, rfl, rfl, rfl, rfl, rfl, rfl, rfl, rfl⟩

/-- C10 witness: a caller-supplied config with
`preserve_code_blocks := false` comes back with the flag forced to
`true` and all other fields intact. -/
theorem semanticChunkerInit_forces_preserve_witness :
    semanticChunkerInit (some { preserve_code_blocks := false }) =
      Except.ok { ({ preserve_code_blocks := false } : ChunkingConfig) with
        preserve_code_blocks := true } ∧
    ∀ c', semanticChunkerInit (some { preserve_code_blocks := false }) = Except.ok c' →
      c'.preserve_code_blocks = true ∧
      c'.max_tokens = ({ preserve_code_blocks := false } : ChunkingConfig).max_tokens ∧
      c'.overlap_tokens = ({ preserve_code_blocks := false } : ChunkingConfig).overlap_tokens ∧
      c'.preserve_sections = ({ preserve_code_blocks := false } : ChunkingConfig).preserve_sections ∧
      c'.min_chunk_tokens = ({ preserve_code_blocks := false } : ChunkingConfig).min_chunk_tokens ∧
      c'.encoding_model = ({ preserve_code_blocks := false } : ChunkingConfig).encoding_model ∧
      c'.respect_sentence_boundaries =
        ({ preserve_code_blocks := false } : ChunkingConfig).respect_sentence_boundaries ∧
      c'.respect_paragraph_boundaries =
        ({ preserve_code_blocks := false } : ChunkingConfig).respect_paragraph_boundaries ∧
      c'.include_metadata_in_chunk =
        ({ preserve_code_blocks := false } : ChunkingConfig).include_metadata_in_chunk :=
  semanticChunkerInit_forces_preserve { preserve_code_blocks := false } (by rfl)

/-! ## Linking pass (`base_chunker.py` `_add_chunk_relationships`, lines 118-176) -/

/-- One iteration of the `_add_chunk_relationships` loop for the chunk at
index `i`: set `prev_chunk_id`/`overlap_prev` from the previous chunk,
`next_chunk_id`/`overlap_next` from the next chunk, then recompute
`overlap_token_count`.  Contents are never mutated by the pass, so the
neighbours are read from the original list. -/
def linkOne (tc : TokenCounter) (cfg : ChunkingConfig) (chunks : List Chunk)
    (i : Nat) (chunk : Chunk) : Chunk :=
  let c1 :=
    match i, chunks[i - 1]? with
    | 0, _ => chunk
    | _ + 1, none => chunk   -- unreachable: the pass only visits valid indices
    | _ + 1, some prev =>
      let c := { chunk with prev_chunk_id := some prev.chunk_id }
      if 0 < cfg.overlap_tokens then
        -- overlap_tokens = min(config.overlap_tokens, count(prev_content))
        let ov := min cfg.overlap_tokens (tc.count prev.content)
        let prevTokens := tc.encode prev.content
        if ov < prevTokens.length then
          { c with overlap_prev := some (tc.decode (pyTail prevTokens ov)) }
        else c
      else c
  let c2 :=
    match chunks[i + 1]? with
    | none => c1
    | some next =>
      let c := { c1 with next_chunk_id := some next.chunk_id }
      if 0 < cfg.overlap_tokens then
        let ov := min cfg.overlap_tokens (tc.count next.content)
        let nextTokens := tc.encode next.content
        if ov < nextTokens.length then
          { c with overlap_next := some (tc.decode (nextTokens.take ov)) }
        else c
      else c
  { c2 with overlap_token_count :=
      tc.count (c2.overlap_prev.getD "") + tc.count (c2.overlap_next.getD "") }

/-- `BaseChunker._add_chunk_relationships`: the post-hoc linking pass over
the complete chunk list. -/
def addChunkRelationships (tc : TokenCounter) (cfg : ChunkingConfig)
    (chunks : List Chunk) : List Chunk :=
  chunks.enum.map (fun p => linkOne tc cfg chunks p.1 p.2)

/-- Pointwise description of the linking pass. -/
theorem addChunkRelationships_getElem? (tc : TokenCounter) (cfg : ChunkingConfig)
    (chunks : List Chunk) (j : Nat) :
    (addChunkRelationships tc cfg chunks)[j]? =
      chunks[j]?.map (linkOne tc cfg chunks j) := by
  unfold addChunkRelationships
  rw [List.getElem?_map, List.getElem?_enum]
  cases chunks[j]? <;> rfl

/-- The pass stores the trailing overlap of chunk `i` in field
`overlap_prev` of chunk `i + 1` (not in `overlap_next` of chunk `i`). -/
theorem linkOne_overlap_prev (tc : TokenCounter) (cfg : ChunkingConfig)
    (chunks : List Chunk) (i : Nat) (chunk earlier : Chunk)
    (hpos : 0 < cfg.overlap_tokens)
    (he : chunks[i]? = some earlier)
    (hk : cfg.overlap_tokens < tc.count earlier.content) :
    (linkOne tc cfg chunks (i + 1) chunk).overlap_prev =
      some (tc.decode (pyTail (tc.encode earlier.content) cfg.overlap_tokens)) := by
  have hmin : min cfg.overlap_tokens (tc.count earlier.content) = cfg.overlap_tokens :=
    Nat.min_eq_left (Nat.le_of_lt hk)
  have hk' : cfg.overlap_tokens < (tc.encode earlier.content).length := hk
  unfold linkOne
  simp only [Nat.add_sub_cancel, he, if_pos hpos, hmin, if_pos hk']
  split
  · rfl
  · split
    · rfl
    · rfl

/-- C2 (amended).  The claim attributes the trailing overlap of an
earlier chunk to that chunk's own `overlap_next`; in the code
`overlap_next` of the earlier chunk holds the *leading*
`overlap_tokens` tokens of the later chunk, and it is the *later*
chunk's `overlap_prev` that holds the trailing `overlap_tokens` tokens
of the earlier chunk (when the earlier chunk has more than
`overlap_tokens` tokens). -/
theorem addChunkRelationships_trailing_overlap (tc : TokenCounter) (cfg : ChunkingConfig)
    (chunks : List Chunk) (i : Nat) (earlier later : Chunk)
    (hpos : 0 < cfg.overlap_tokens)
    (he : chunks[i]? = some earlier) (hl : chunks[i + 1]? = some later)
    (hk : cfg.overlap_tokens < tc.count earlier.content) :
    ∃ c', (addChunkRelationships tc cfg chunks)[i + 1]? = some c' ∧
      c'.overlap_prev =
        some (tc.decode (pyTail (tc.encode earlier.content) cfg.overlap_tokens)) := by
  refine ⟨linkOne tc cfg chunks (i + 1) later, ?_, ?_⟩
  · rw [addChunkRelationships_getElem?, hl]; rfl
  · exact linkOne_overlap_prev tc cfg chunks i later earlier hpos he hk

/-- A sample chunk for concrete linking runs. -/
def mkChunk (content : String) (idx : Nat) : Chunk :=
  { chunk_id := "c" ++ toString idx
    content := content
    chunk_type := ChunkType.TEXT
    token_count := content.length
    metadata := { source_file := "doc.md", chunk_index := idx, total_chunks := 2 } }

/-- A valid config with `overlap_tokens = 1`. -/
def cfgOv1 : ChunkingConfig :=
  { max_tokens := 2, overlap_tokens := 1, min_chunk_tokens := 0 }

/-- C2 counterexample: chunks `"ab"`, `"cd"` under a one-character-per-token
tokenizer with `overlap_tokens = 1`.  After the pass, `overlap_next` of the
earlier chunk is `"c"` (leading token of the later chunk), while the
trailing 1 token of the earlier chunk is `"b"`; the claimed equality fails. -/
theorem addChunkRelationships_overlap_next_is_leading :
    (addChunkRelationships charTok cfgOv1 [mkChunk "ab" 0, mkChunk "cd" 1]).map
        (fun c => c.overlap_next) = [some "c", none] ∧
    charTok.decode (pyTail (charTok.encode "ab") 1) = "b" ∧
    (some "c" : Option String) ≠ some "b" :=
  ⟨by decide, by decide, by decide⟩

/-- C2 witness: the amended statement evaluated on the same concrete pair —
the later chunk's `overlap_prev` is the earlier chunk's trailing token. -/
theorem addChunkRelationships_trailing_overlap_witness :
    ∃ c', (addChunkRelationships charTok cfgOv1 [mkChunk "ab" 0, mkChunk "cd" 1])[0 + 1]? =
        some c' ∧
      c'.overlap_prev =
        some (charTok.decode (pyTail (charTok.encode (mkChunk "ab" 0).content)
          cfgOv1.overlap_tokens)) :=
  addChunkRelationships_trailing_overlap charTok cfgOv1 [mkChunk "ab" 0, mkChunk "cd" 1]
    0 (mkChunk "ab" 0) (mkChunk "cd" 1) (by decide) (by decide) (by decide) (by decide)

/-! ## Content classification (`base_chunker.py` lines 192-254) -/

/-- `BaseChunker._detect_code`. -/
def detectCode (text : String) : Bool :=
  [ "```", "def ", "class ", "import ", "from ", "function ", "const ", "let ", "var ",
    "return ", "if __name__", "async def", "await " ].any (fun ind => strContains text ind)

/-- `BaseChunker._detect_chunk_type`. -/
def detectChunkType (text : String) : ChunkType :=
  if strContains text "```" || detectCode text then
    if 100 < (pyStrip ((pySplitStr text "```").headD "")).length then ChunkType.MIXED
    else ChunkType.CODE
  else if strStarts (pyStrip text) "#" then ChunkType.SECTION_HEADER
  else if ["MUST", "SHALL", "SHOULD", "REQUIRED"].any (fun m => strContains (pyUpper text) m) then
    ChunkType.REQUIREMENT
  else if strContains text "- [ ]" || strContains text "- [x]" || strContains text "- [X]" then
    ChunkType.CHECKLIST
  else if strContains text "|" && strContains text "-|-" then ChunkType.TABLE
  else ChunkType.TEXT

/-! ## Structural chunk builder (`semantic_chunker.py`)

`_generate_chunk_id` builds `f"chunk_{index:04d}_{md5(content)[:8]}"`; md5 is
an external library, so the id generator is an abstract parameter
`genId : String → Nat → String` of content and ordinal. -/

/-- `SemanticChunker._create_text_chunk` (`semantic_chunker.py` lines
415-450): join the parts with blank lines and build a chunk whose metadata
carries `total_chunks = 0` (the source comment says it "Will be updated
later"). -/
def createTextChunk (tc : TokenCounter) (genId : String → Nat → String)
    (cfg : ChunkingConfig) (textParts : List String) (sourceFile : String)
    (sec : Option String) (chunkIndex : Nat) : Chunk :=
  let content := pyJoin "\n\n" textParts
  { chunk_id := genId content chunkIndex
    content := content
    chunk_type := detectChunkType content
    token_count := tc.count content
    encoding_model := cfg.encoding_model
    metadata :=
      { source_file := sourceFile, section_name := sec,
        has_code := detectCode content, chunk_index := chunkIndex, total_chunks := 0 } }

/-- `SemanticChunker._create_section_chunk` (`semantic_chunker.py` lines
452-485); also `total_chunks = 0`. -/
def createSectionChunk (tc : TokenCounter) (genId : String → Nat → String)
    (cfg : ChunkingConfig) (content sectionSlug sourceFile : String)
    (chunkIndex : Nat) : Chunk :=
  { chunk_id := genId content chunkIndex
    content := content
    chunk_type := if strStarts content "#" then ChunkType.SECTION_HEADER
      else detectChunkType content
    token_count := tc.count content
    encoding_model := cfg.encoding_model
    metadata :=
      { source_file := sourceFile, section_name := some sectionSlug,
        has_code := detectCode content, chunk_index := chunkIndex, total_chunks := 0 } }

/-- Python `s.split()` (no argument): split on whitespace runs, dropping
empty pieces. -/
def wsSplitGo : List Char → List Char → List (List Char)
  | [], cur => if cur.isEmpty then [] else [cur]
  | c :: cs, cur =>
    if c.isWhitespace then
      if cur.isEmpty then wsSplitGo cs [] else cur :: wsSplitGo cs []
    else wsSplitGo cs (cur ++ [c])

/-- Python `s.split()` on a string. -/
def pySplitWs (s : String) : List String :=
  (wsSplitGo s.data []).map (fun l => ⟨l⟩)

/-- Is the character a sentence closer for `re.split(r'(?<=[.!?])\s+', ...)`. -/
def isSentCloser (c : Char) : Bool :=
  c == '.' || c == '!' || c == '?'

/-- Fuel-indexed scan for `re.split(r'(?<=[.!?])\s+', paragraph)`: cut at
each maximal whitespace run immediately preceded by `.`, `!` or `?`. -/
def sentGo : Nat → List Char → List Char → List (List Char)
  | 0, _, cur => [cur]
  | _ + 1, [], cur => [cur]
  | fuel + 1, c :: cs, cur =>
    if c.isWhitespace ∧ (cur.getLast?.elim false isSentCloser) then
      cur :: sentGo fuel (cs.dropWhile Char.isWhitespace) []
    else sentGo fuel (cur ++ [c]) cs

/-- The sentence splitter `re.split(r'(?<=[.!?])\s+', paragraph)` of
`_split_paragraph`. -/
def sentenceSplit (s : String) : List String :=
  (sentGo (s.data.length + 1) s.data []).map (fun l => ⟨l⟩)

/-- `SemanticChunker._split_paragraph` (`semantic_chunker.py` lines
487-568): sentence accumulation with last-resort word splitting. -/
def splitParagraph (tc : TokenCounter) (genId : String → Nat → String)
    (cfg : ChunkingConfig) (paragraph sectionSlug sourceFile : String)
    (startIndex : Nat) : List Chunk :=
  let sentences := sentenceSplit paragraph
  let state := sentences.foldl (fun (st : List Chunk × List String × Nat) sentence =>
    let (chunks, buf, toks) := st
    let sentTokens := tc.count sentence
    if cfg.max_tokens < toks + sentTokens then
      -- flush the sentence buffer if non-empty
      let (chunks1, buf1, toks1) :=
        if buf ≠ [] then
          (chunks ++ [createTextChunk tc genId cfg buf sourceFile (some sectionSlug)
            (startIndex + chunks.length)], ([] : List String), 0)
        else (chunks, buf, toks)
      if cfg.max_tokens < sentTokens then
        -- split sentence at word boundaries as last resort
        let words := pySplitWs sentence
        let wstate := words.foldl (fun (wst : List Chunk × List String × Nat) word =>
          let (c2, wb, wt) := wst
          let wordTokens := tc.count (word ++ " ")
          let (c3, wb1, wt1) :=
            if cfg.max_tokens < wt + wordTokens then
              if wb ≠ [] then
                (c2 ++ [createTextChunk tc genId cfg [pyJoin " " wb] sourceFile
                  (some sectionSlug) (startIndex + c2.length)], ([] : List String), 0)
              else (c2, wb, wt)
            else (c2, wb, wt)
          (c3, wb1 ++ [word], wt1 + wordTokens)) (chunks1, ([] : List String), 0)
        let (chunks2, wbuf, _) := wstate
        if wbuf ≠ [] then
          (chunks2, [pyJoin " " wbuf], tc.count (pyJoin " " wbuf))
        else (chunks2, buf1, toks1)
      else (chunks1, buf1 ++ [sentence], sentTokens)
    else (chunks, buf ++ [sentence], toks + sentTokens)) ([], [], 0)
  let (chunks, buf, _) := state
  if buf ≠ [] then
    chunks ++ [createTextChunk tc genId cfg buf sourceFile (some sectionSlug)
      (startIndex + chunks.length)]
  else chunks

/-- `SemanticChunker._process_section_content` (`semantic_chunker.py`
lines 180-264). -/
def processSectionContent (tc : TokenCounter) (genId : String → Nat → String)
    (cfg : ChunkingConfig) (content sectionSlug sourceFile : String)
    (startIndex : Nat) : List Chunk :=
  if cfg.respect_paragraph_boundaries then
    let paragraphs := pySplitStr content "\n\n"
    let state := paragraphs.foldl (fun (st : List Chunk × List String × Nat) para =>
      let (chunks, buf, toks) := st
      let paraTokens := tc.count para
      if cfg.max_tokens < toks + paraTokens then
        let (chunks1, buf1, toks1) :=
          if buf ≠ [] then
            (chunks ++ [createTextChunk tc genId cfg buf sourceFile (some sectionSlug)
              (startIndex + chunks.length)], ([] : List String), 0)
          else (chunks, buf, toks)
        if cfg.max_tokens < paraTokens then
          (chunks1 ++ splitParagraph tc genId cfg para sectionSlug sourceFile
            (startIndex + chunks1.length), buf1, toks1)
        else (chunks1, buf1 ++ [para], paraTokens)
      else (chunks, buf ++ [para], toks + paraTokens)) ([], [], 0)
    let (chunks, buf, _) := state
    if buf ≠ [] then
      chunks ++ [createTextChunk tc genId cfg buf sourceFile (some sectionSlug)
        (startIndex + chunks.length)]
    else chunks
  else
    -- simple token-based splitting; the `.getD []` branch is dead by
    -- `splitLoop_total` (the split always returns `some`)
    let texts := (tc.splitAtTokenLimit content cfg.max_tokens cfg.overlap_tokens).getD []
    texts.enum.map (fun p =>
      createTextChunk tc genId cfg [p.2] sourceFile (some sectionSlug) (startIndex + p.1))

/-- `SemanticChunker._split_large_section` (`semantic_chunker.py` lines
570-594): delegates to `_process_section_content`. -/
def splitLargeSection (tc : TokenCounter) (genId : String → Nat → String)
    (cfg : ChunkingConfig) (sectionText sectionSlug sourceFile : String)
    (startIndex : Nat) : List Chunk :=
  processSectionContent tc genId cfg sectionText sectionSlug sourceFile startIndex

/-- A document section as consumed by `_chunk_sectioned_document`
(an object with `content` and `slug`). -/
structure DocSection where
  content : String
  slug : String

/-- `SemanticChunker._chunk_sectioned_document` (`semantic_chunker.py`
lines 137-178): build the chunk list section by section, then run the
linking pass. -/
def chunkSectionedDocument (tc : TokenCounter) (genId : String → Nat → String)
    (cfg : ChunkingConfig) (sections : List DocSection) (sourceFile : String) :
    List Chunk :=
  let chunks := sections.foldl (fun acc s =>
    if tc.count s.content ≤ cfg.max_tokens then
      acc ++ [createSectionChunk tc genId cfg s.content s.slug sourceFile acc.length]
    else
      acc ++ splitLargeSection tc genId cfg s.content s.slug sourceFile acc.length) []
  addChunkRelationships tc cfg chunks

/-- A concrete id generator standing in for `_generate_chunk_id`
(md5 is external; ids play no role in the claims checked on it). -/
def sampleGenId (_content : String) (idx : Nat) : String :=
  "chunk_" ++ toString idx

/-- C3 (code bug): a one-section document chunked by the sectioned-document
path yields one chunk whose `metadata.total_chunks` is still `0`, not `1`:
`_create_section_chunk`/`_create_text_chunk` write `total_chunks=0` with the
comment "Will be updated later", but `_add_chunk_relationships` — the linking
pass — never updates the field. -/
theorem chunkSectionedDocument_total_chunks_stays_zero :
    (chunkSectionedDocument charTok sampleGenId {} [⟨"hello world", "intro"⟩] "doc.md").map
        (fun c => c.metadata.total_chunks) = [0] ∧
    (chunkSectionedDocument charTok sampleGenId {} [⟨"hello world", "intro"⟩] "doc.md").length
        = 1 ∧
    (0 : Nat) ≠ 1 :=
  ⟨by decide, by decide, by decide⟩

/-! ## Marker-based sub-example splitter (`full_enhanced_enricher.py`)

`_check_patterns(line, PATTERNS)` runs the external `re` engine over the
declarative `ENHANCED_GOOD_PATTERNS` / `ENHANCED_BAD_PATTERNS` tables and
returns the list of matching patterns; it is modelled as an abstract line
matcher `String → List String`.  `_comprehensive_pattern_detection` (used
only on the no-split fallback) is likewise a parameter. -/

/-- `ExampleType` (`enhanced_enricher_with_examples.py` lines 15-21). -/
inductive ExampleType where
  | GOOD | BAD | NEUTRAL | COMPARISON
deriving DecidableEq, Repr

/-- `CodeBlock` is imported from `minimal_enhanced_enricher` (module not in
the tree); the splitter reads exactly these fields of it. -/
structure CodeBlock where
  content : String
  language : String
  section_slug : String
  line_start : Option Int
deriving DecidableEq, Repr

/-- `FullCodeExample` (`full_enhanced_enricher.py` lines 23-28, extending
`CodeExample`).  The floating-point `pattern_confidence` field (always left
at its default by the splitter) is outside the embedding. -/
structure FullCodeExample where
  content : String
  language : String := ""
  section_slug : String := ""
  line_start : Option Int := none
  example_type : ExampleType := ExampleType.NEUTRAL
  pattern_markers : List String := []
  context_before : String := ""
  context_after : String := ""
  is_split : Bool := false
  original_block_id : Option String := none
deriving DecidableEq, Repr

/-- `FullEnhancedEnricher._create_example` (`full_enhanced_enricher.py`
lines 330-349). -/
def createExample (lines : List String) (block : CodeBlock) (exampleType : ExampleType)
    (markers : List String) (isSplit : Bool) (blockId : Option String) : FullCodeExample :=
  { content := pyJoin "\n" lines
    language := block.language
    section_slug := block.section_slug
    line_start := block.line_start
    example_type := exampleType
    pattern_markers := markers
    is_split := isSplit
    original_block_id := if isSplit then blockId else none }

/-- One line of the `_split_multi_example_block` loop
(`full_enhanced_enricher.py` lines 252-295).  State:
`(examples, current_lines, current_type, current_markers)`. -/
def splitMEBStep (checkGood checkBad : String → List String) (block : CodeBlock)
    (blockId : Nat)
    (st : List FullCodeExample × List String × Option ExampleType × List String)
    (line : String) :
    List FullCodeExample × List String × Option ExampleType × List String :=
  let (examples, cur, curType, curMarkers) := st
  let goodMatch := checkGood line
  let badMatch := checkBad line
  if goodMatch ≠ [] then
    let examples1 :=
      match curType with
      | some t =>
        if cur ≠ [] then
          examples ++ [createExample cur block t curMarkers true (some (toString blockId))]
        else examples
      | none => examples
    (examples1, [line], some ExampleType.GOOD, goodMatch)
  else if badMatch ≠ [] then
    let examples1 :=
      match curType with
      | some t =>
        if cur ≠ [] then
          examples ++ [createExample cur block t curMarkers true (some (toString blockId))]
        else examples
      | none => examples
    (examples1, [line], some ExampleType.BAD, badMatch)
  else
    (examples, cur ++ [line], curType, curMarkers)

/-- `FullEnhancedEnricher._split_multi_example_block`
(`full_enhanced_enricher.py` lines 236-328). -/
def splitMultiExampleBlock (checkGood checkBad : String → List String)
    (compDetect : String → ExampleType × List String)
    (block : CodeBlock) (blockId : Nat) : List FullCodeExample :=
  let lines := pySplitStr block.content "\n"
  let st := lines.foldl (splitMEBStep checkGood checkBad block blockId) ([], [], none, [])
  let (examples, cur, curType, curMarkers) := st
  let examples :=
    match curType with
    | some t =>
      if cur ≠ [] then
        examples ++ [createExample cur block t curMarkers true (some (toString blockId))]
      else examples
    | none => examples
  if examples = [] then
    let det := compDetect block.content
    [{ content := block.content
       language := block.language
       section_slug := block.section_slug
       line_start := block.line_start
       example_type := det.1
       pattern_markers := det.2
       is_split := false
       original_block_id := none }]
  else examples

/-- A run of lines matching neither marker set only extends the open
sub-unit. -/
theorem splitMEBStep_neutral_run (checkGood checkBad : String → List String)
    (block : CodeBlock) (blockId : Nat) :
    ∀ (ms : List String) examples cur curType curMarkers,
      (∀ l ∈ ms, checkGood l = [] ∧ checkBad l = []) →
      ms.foldl (splitMEBStep checkGood checkBad block blockId)
          (examples, cur, curType, curMarkers) =
        (examples, cur ++ ms, curType, curMarkers) := by
  intro ms
  induction ms with
  | nil => intro examples cur curType curMarkers _; simp
  | cons m ms ih =>
    intro examples cur curType curMarkers h
    have hm := h m (List.mem_cons_self m ms)
    have hrest : ∀ l ∈ ms, checkGood l = [] ∧ checkBad l = [] :=
      fun l hl => h l (List.mem_cons_of_mem m hl)
    simp only [List.foldl_cons]
    rw [show splitMEBStep checkGood checkBad block blockId
        (examples, cur, curType, curMarkers) m = (examples, cur ++ [m], curType, curMarkers) by
      simp [splitMEBStep, hm.1, hm.2]]
    rw [ih examples (cur ++ [m]) curType curMarkers hrest]
    simp

/-- C8: a block whose lines are a good-marker line, non-marker lines, a
bad-marker line (not itself matching a good pattern), and non-marker
lines is split into exactly two sub-units, labeled good then bad, each
consisting of its marker line plus the following non-marker lines. -/
theorem splitMultiExampleBlock_good_then_bad (checkGood checkBad : String → List String)
    (compDetect : String → ExampleType × List String)
    (block : CodeBlock) (blockId : Nat) (g b : String) (m1 m2 : List String)
    (hsplit : pySplitStr block.content "\n" = [g] ++ m1 ++ [b] ++ m2)
    (hg : checkGood g ≠ [])
    (hbg : checkGood b = []) (hb : checkBad b ≠ [])
    (hm1 : ∀ l ∈ m1, checkGood l = [] ∧ checkBad l = [])
    (hm2 : ∀ l ∈ m2, checkGood l = [] ∧ checkBad l = []) :
    splitMultiExampleBlock checkGood checkBad compDetect block blockId =
      [createExample ([g] ++ m1) block ExampleType.GOOD (checkGood g) true
        (some (toString blockId)),
       createExample ([b] ++ m2) block ExampleType.BAD (checkBad b) true
        (some (toString blockId))] := by
  unfold splitMultiExampleBlock
  rw [hsplit]
  have h1 : splitMEBStep checkGood checkBad block blockId ([], [], none, []) g
      = ([], [g], some ExampleType.GOOD, checkGood g) := by
    simp [splitMEBStep, hg]
  simp only [List.foldl_append, List.foldl_cons, List.foldl_nil]
  rw [h1]
  rw [splitMEBStep_neutral_run checkGood checkBad block blockId m1 [] [g]
    (some ExampleType.GOOD) (checkGood g) hm1]
  have h2 : splitMEBStep checkGood checkBad block blockId
      ([], [g] ++ m1, some ExampleType.GOOD, checkGood g) b
      = ([createExample ([g] ++ m1) block ExampleType.GOOD (checkGood g) true
          (some (toString blockId))], [b], some ExampleType.BAD, checkBad b) := by
    simp [splitMEBStep, hbg, hb]
  rw [h2]
  rw [splitMEBStep_neutral_run checkGood checkBad block blockId m2
    [createExample ([g] ++ m1) block ExampleType.GOOD (checkGood g) true
      (some (toString blockId))] [b] (some ExampleType.BAD) (checkBad b) hm2]
  simp

/-- A concrete good-marker matcher for witnesses (the `#\s*GOOD:` row of
`ENHANCED_GOOD_PATTERNS`, specialised to a literal match). -/
def goodCheck (line : String) : List String :=
  if strContains line "# GOOD:" then ["# GOOD:"] else []

/-- A concrete bad-marker matcher for witnesses (the `#\s*BAD:` row of
`ENHANCED_BAD_PATTERNS`, specialised to a literal match). -/
def badCheck (line : String) : List String :=
  if strContains line "# BAD:" then ["# BAD:"] else []

/-- A concrete fallback detector for witnesses (no pattern found). -/
def neutralDetect (_s : String) : ExampleType × List String :=
  (ExampleType.NEUTRAL, [])

/-- C8 witness: the block `"# GOOD: a\nx\n# BAD: b\ny"` splits into exactly
the good sub-unit `"# GOOD: a\nx"` and the bad sub-unit `"# BAD: b\ny"`. -/
theorem splitMultiExampleBlock_good_then_bad_witness :
    splitMultiExampleBlock goodCheck badCheck neutralDetect
        ⟨"# GOOD: a\nx\n# BAD: b\ny", "python", "s1", none⟩ 7 =
      [createExample (["# GOOD: a"] ++ ["x"])
        ⟨"# GOOD: a\nx\n# BAD: b\ny", "python", "s1", none⟩
        ExampleType.GOOD (goodCheck "# GOOD: a") true (some (toString 7)),
       createExample (["# BAD: b"] ++ ["y"])
        ⟨"# GOOD: a\nx\n# BAD: b\ny", "python", "s1", none⟩
        ExampleType.BAD (badCheck "# BAD: b") true (some (toString 7))] :=
  splitMultiExampleBlock_good_then_bad goodCheck badCheck neutralDetect
    ⟨"# GOOD: a\nx\n# BAD: b\ny", "python", "s1", none⟩ 7 "# GOOD: a" "# BAD: b"
    ["x"] ["y"] (by decide) (by decide) (by decide) (by decide)
    (by decide) (by decide)

/-- C4 counterexample: the block `"x\n# GOOD: a"` is split into the single
sub-unit `"# GOOD: a"`; the leading line `"x"` is dropped, so concatenating
the sub-unit contents does not reconstruct the block — a lossy path that is
not the forced line-splitting of §4.3, and nothing is flagged (no
`budget_exceeded` or similar field exists on the output). -/
theorem splitMultiExampleBlock_drops_leading_lines :
    (splitMultiExampleBlock goodCheck badCheck neutralDetect
        ⟨"x\n# GOOD: a", "", "", none⟩ 0).map (fun e => e.content) = ["# GOOD: a"] ∧
    pyJoin "\n" ["# GOOD: a"] ≠ "x\n# GOOD: a" :=
  ⟨by decide, by decide⟩

/-! ### Join/split algebra for the reconstruction statement -/

/-- `pyJoin` over a cons with a non-empty tail. -/
theorem pyJoin_cons (sep p : String) (ps : List String) (h : ps ≠ []) :
    pyJoin sep (p :: ps) = p ++ sep ++ pyJoin sep ps := by
  cases ps with
  | nil => exact absurd rfl h
  | cons q qs => rfl

/-- `pyJoin` distributes over append of non-empty lists. -/
theorem pyJoin_append (sep : String) (xs ys : List String) (hxs : xs ≠ []) (hys : ys ≠ []) :
    pyJoin sep (xs ++ ys) = pyJoin sep xs ++ sep ++ pyJoin sep ys := by
  induction xs with
  | nil => exact absurd rfl hxs
  | cons x xs ih =>
    cases xs with
    | nil =>
      simp only [List.singleton_append]
      rw [pyJoin_cons sep x ys hys]
      rfl
    | cons x' xs' =>
      rw [List.cons_append, pyJoin_cons sep x ((x' :: xs') ++ ys) (by simp),
        pyJoin_cons sep x (x' :: xs') (by simp), ih (by simp)]
      simp [String.append_assoc]

/-- Merging the last two joined parts into one part preserves the join. -/
theorem pyJoin_merge_last (sep : String) (xs : List String) (a b : String) :
    pyJoin sep (xs ++ [a, b]) = pyJoin sep (xs ++ [a ++ sep ++ b]) := by
  cases xs with
  | nil => rfl
  | cons x xs =>
    rw [pyJoin_append sep (x :: xs) [a, b] (by simp) (by simp),
      pyJoin_append sep (x :: xs) [a ++ sep ++ b] (by simp) (by simp)]
    rfl

/-- Char-level join mirroring `pyJoin`. -/
def joinCharsSep (sep : List Char) : List (List Char) → List Char
  | [] => []
  | [p] => p
  | p :: ps => p ++ sep ++ joinCharsSep sep ps

/-- A successful prefix test decomposes the list. -/
theorem listIsPre_append (p : List Char) : ∀ l, listIsPre p l = true →
    p ++ l.drop p.length = l := by
  induction p with
  | nil => intro l _; simp
  | cons c p ih =>
    intro l h
    cases l with
    | nil => simp [listIsPre] at h
    | cons d l =>
      simp only [listIsPre, Bool.and_eq_true, beq_iff_eq] at h
      obtain ⟨rfl, h2⟩ := h
      simp only [List.cons_append, List.length_cons, List.drop_succ_cons]
      rw [ih l h2]

/-- The split worker never returns an empty list when it has fuel. -/
theorem pySplitGo_ne_nil (sep : List Char) : ∀ fuel cur l, l.length < fuel →
    pySplitGo sep cur fuel l ≠ [] := by
  intro fuel
  induction fuel with
  | zero => intro cur l h; omega
  | succ fuel ih =>
    intro cur l h
    cases l with
    | nil => simp [pySplitGo]
    | cons c cs =>
      by_cases hpre : listIsPre sep (c :: cs) = true
      · simp [pySplitGo, hpre]
      · simp only [pySplitGo, hpre]
        exact ih (cur ++ [c]) cs (by simpa using h)

/-- Joining the pieces of the split worker restores the input. -/
theorem pySplitGo_join (sep : List Char) (hsep : sep ≠ []) : ∀ fuel cur l, l.length < fuel →
    joinCharsSep sep (pySplitGo sep cur fuel l) = cur ++ l := by
  intro fuel
  induction fuel with
  | zero => intro cur l h; omega
  | succ fuel ih =>
    intro cur l h
    cases l with
    | nil => simp [pySplitGo, joinCharsSep]
    | cons c cs =>
      by_cases hpre : listIsPre sep (c :: cs) = true
      · simp only [pySplitGo, hpre, if_true]
        have hrest : ((c :: cs).drop sep.length).length < fuel := by
          have hlen : 1 ≤ sep.length := by
            cases sep with
            | nil => exact absurd rfl hsep
            | cons _ _ => simp
          have h' : cs.length < fuel := by simpa using h
          simp only [List.length_drop, List.length_cons]
          omega
        have hne := pySplitGo_ne_nil sep fuel [] ((c :: cs).drop sep.length) hrest
        have hjoin := ih [] ((c :: cs).drop sep.length) hrest
        rw [show joinCharsSep sep (cur :: pySplitGo sep [] fuel ((c :: cs).drop sep.length))
            = cur ++ sep ++ joinCharsSep sep (pySplitGo sep [] fuel ((c :: cs).drop sep.length))
          from by
            cases hps : pySplitGo sep [] fuel ((c :: cs).drop sep.length) with
            | nil => exact absurd hps hne
            | cons q qs => cases qs <;> rfl]
        rw [hjoin]
        simp only [List.nil_append, List.append_assoc]
        rw [listIsPre_append sep (c :: cs) hpre]
      · rw [show pySplitGo sep cur (fuel + 1) (c :: cs) = pySplitGo sep (cur ++ [c]) fuel cs
          from by simp [pySplitGo, hpre]]
        rw [ih (cur ++ [c]) cs (by simpa using h)]
        simp

/-- `pyJoin` over string wrappers equals the char-level join. -/
theorem pyJoin_map_mk (sepL : List Char) : ∀ parts : List (List Char),
    pyJoin ⟨sepL⟩ (parts.map (fun l => (⟨l⟩ : String))) = ⟨joinCharsSep sepL parts⟩ := by
  intro parts
  induction parts with
  | nil => rfl
  | cons p ps ih =>
    cases ps with
    | nil => rfl
    | cons q qs =>
      rw [List.map_cons, pyJoin_cons _ _ _ (by simp),
        show joinCharsSep sepL (p :: q :: qs) = p ++ sepL ++ joinCharsSep sepL (q :: qs)
          from rfl]
      rw [ih]
      rfl

/-- Split-join identity: joining `s.split(sep)` with `sep` restores `s`
(non-empty separator). -/
theorem pyJoin_pySplitStr (s sep : String) (hsep : sep.data ≠ []) :
    pyJoin sep (pySplitStr s sep) = s := by
  obtain ⟨sepL⟩ := sep
  obtain ⟨sL⟩ := s
  unfold pySplitStr
  rw [pyJoin_map_mk]
  rw [pySplitGo_join sepL (by simpa using hsep) (sL.length + 1) [] sL (by omega)]
  rfl

/-- Closing the open sub-unit and opening a new one preserves the joined
contents. -/
theorem pyJoin_close_open (xs : List String) (cur : List String) (l : String)
    (rest : List String) (hcur : cur ≠ []) :
    pyJoin "\n" ((xs ++ [pyJoin "\n" cur]) ++ [pyJoin "\n" (l :: rest)])
      = pyJoin "\n" (xs ++ [pyJoin "\n" (cur ++ l :: rest)]) := by
  rw [List.append_assoc]
  rw [show [pyJoin "\n" cur] ++ [pyJoin "\n" (l :: rest)]
      = [pyJoin "\n" cur, pyJoin "\n" (l :: rest)] from rfl]
  rw [pyJoin_merge_last "\n" xs (pyJoin "\n" cur) (pyJoin "\n" (l :: rest))]
  rw [← pyJoin_append "\n" cur (l :: rest) hcur (by simp)]

/-- Running the splitter from a state with an open sub-unit loses nothing:
the joined contents (including the open sub-unit) extend by exactly the
processed lines. -/
theorem splitMEB_run_join (cg cb : String → List String) (block : CodeBlock) (blockId : Nat) :
    ∀ (lines : List String) (examples : List FullCodeExample) (cur : List String)
      (t : ExampleType) (mks : List String), cur ≠ [] →
      ∃ examples2 cur2 t2 mks2,
        lines.foldl (splitMEBStep cg cb block blockId) (examples, cur, some t, mks)
          = (examples2, cur2, some t2, mks2) ∧ cur2 ≠ [] ∧
        pyJoin "\n" (examples2.map (fun e => e.content) ++ [pyJoin "\n" cur2])
          = pyJoin "\n" (examples.map (fun e => e.content) ++ [pyJoin "\n" (cur ++ lines)]) := by
  intro lines
  induction lines with
  | nil =>
    intro examples cur t mks hcur
    exact ⟨examples, cur, t, mks, by simp, hcur, by simp⟩
  | cons l rest ih =>
    intro examples cur t mks hcur
    rw [List.foldl_cons]
    by_cases hgl : cg l = []
    · by_cases hbl : cb l = []
      · -- neutral line: appended to the open sub-unit
        rw [show splitMEBStep cg cb block blockId (examples, cur, some t, mks) l
            = (examples, cur ++ [l], some t, mks) from by simp [splitMEBStep, hgl, hbl]]
        obtain ⟨e2, c2, t2, mk2, heq, hne, hJ⟩ := ih examples (cur ++ [l]) t mks (by simp)
        exact ⟨e2, c2, t2, mk2, heq, hne, by rw [hJ]; simp⟩
      · -- bad-marker line: close the open sub-unit, open a new one
        rw [show splitMEBStep cg cb block blockId (examples, cur, some t, mks) l
            = (examples ++ [createExample cur block t mks true (some (toString blockId))],
              [l], some ExampleType.BAD, cb l) from by simp [splitMEBStep, hgl, hbl, hcur]]
        obtain ⟨e2, c2, t2, mk2, heq, hne, hJ⟩ := ih
          (examples ++ [createExample cur block t mks true (some (toString blockId))])
          [l] ExampleType.BAD (cb l) (by simp)
        refine ⟨e2, c2, t2, mk2, heq, hne, ?_⟩
        rw [hJ]
        have hmap : (examples ++
            [createExample cur block t mks true (some (toString blockId))]).map
              (fun e => e.content)
            = examples.map (fun e => e.content) ++ [pyJoin "\n" cur] := by
          simp [createExample]
        rw [hmap, List.singleton_append]
        exact pyJoin_close_open _ cur l rest hcur
    · -- good-marker line: close the open sub-unit, open a new one
      rw [show splitMEBStep cg cb block blockId (examples, cur, some t, mks) l
          = (examples ++ [createExample cur block t mks true (some (toString blockId))],
            [l], some ExampleType.GOOD, cg l) from by simp [splitMEBStep, hgl, hcur]]
      obtain ⟨e2, c2, t2, mk2, heq, hne, hJ⟩ := ih
        (examples ++ [createExample cur block t mks true (some (toString blockId))])
        [l] ExampleType.GOOD (cg l) (by simp)
      refine ⟨e2, c2, t2, mk2, heq, hne, ?_⟩
      rw [hJ]
      have hmap : (examples ++
          [createExample cur block t mks true (some (toString blockId))]).map
            (fun e => e.content)
          = examples.map (fun e => e.content) ++ [pyJoin "\n" cur] := by
        simp [createExample]
      rw [hmap, List.singleton_append]
      exact pyJoin_close_open _ cur l rest hcur

/-- C4 (amended).  Concatenating the splitter's sub-unit contents
reconstructs the block's line sequence only from the first marker line
onward: when some optionally-preceded marker line exists, the lines before
it are silently dropped (an additional, unflagged lossy path beyond the
§4.3 forced line-splitting, which itself is also unflagged — no flag field
exists); a block with no marker line passes through whole.  Joining the
full line split always restores `block.content`, which pins down exactly
what the dropped prefix loses. -/
theorem splitMultiExampleBlock_reconstruction (cg cb : String → List String)
    (cd : String → ExampleType × List String) (block : CodeBlock) (blockId : Nat) :
    (∀ pre g rest, pySplitStr block.content "\n" = pre ++ g :: rest →
      (∀ l ∈ pre, cg l = [] ∧ cb l = []) → (cg g ≠ [] ∨ cb g ≠ []) →
      pyJoin "\n" ((splitMultiExampleBlock cg cb cd block blockId).map (fun e => e.content))
        = pyJoin "\n" (g :: rest)) ∧
    ((∀ l ∈ pySplitStr block.content "\n", cg l = [] ∧ cb l = []) →
      (splitMultiExampleBlock cg cb cd block blockId).map (fun e => e.content)
        = [block.content]) ∧
    pyJoin "\n" (pySplitStr block.content "\n") = block.content := by
  refine ⟨?_, ?_, pyJoin_pySplitStr block.content "\n" (by decide)⟩
  · intro pre g rest hsplit hpre hg
    have hfold0 : (pre ++ g :: rest).foldl (splitMEBStep cg cb block blockId)
        ([], [], none, [])
        = (g :: rest).foldl (splitMEBStep cg cb block blockId) ([], pre, none, []) := by
      rw [List.foldl_append,
        splitMEBStep_neutral_run cg cb block blockId pre [] [] none [] hpre]
      simp
    by_cases hgg : cg g = []
    · have hbb : cb g ≠ [] := by
        rcases hg with h | h
        · exact absurd hgg h
        · exact h
      have hstep : splitMEBStep cg cb block blockId ([], pre, none, []) g
          = ([], [g], some ExampleType.BAD, cb g) := by
        simp [splitMEBStep, hgg, hbb]
      obtain ⟨e2, c2, t2, mk2, heq, hne, hJ⟩ :=
        splitMEB_run_join cg cb block blockId rest [] [g] ExampleType.BAD (cb g) (by simp)
      have hfold : (pre ++ g :: rest).foldl (splitMEBStep cg cb block blockId)
          ([], [], none, []) = (e2, c2, some t2, mk2) := by
        rw [hfold0, List.foldl_cons, hstep, heq]
      unfold splitMultiExampleBlock
      rw [hsplit]
      dsimp only
      rw [hfold]
      dsimp only
      simp only [List.map_nil, List.nil_append, List.singleton_append] at hJ
      have hres : (if c2 ≠ [] then
          e2 ++ [createExample c2 block t2 mk2 true (some (toString blockId))] else e2)
          = e2 ++ [createExample c2 block t2 mk2 true (some (toString blockId))] :=
        if_pos hne
      simp only [hres]
      rw [if_neg (by simp)]
      rw [show (e2 ++ [createExample c2 block t2 mk2 true (some (toString blockId))]).map
            (fun e => e.content)
          = e2.map (fun e => e.content) ++ [pyJoin "\n" c2] from by simp [createExample]]
      rw [hJ]
      rfl
    · have hstep : splitMEBStep cg cb block blockId ([], pre, none, []) g
          = ([], [g], some ExampleType.GOOD, cg g) := by
        simp [splitMEBStep, hgg]
      obtain ⟨e2, c2, t2, mk2, heq, hne, hJ⟩ :=
        splitMEB_run_join cg cb block blockId rest [] [g] ExampleType.GOOD (cg g) (by simp)
      have hfold : (pre ++ g :: rest).foldl (splitMEBStep cg cb block blockId)
          ([], [], none, []) = (e2, c2, some t2, mk2) := by
        rw [hfold0, List.foldl_cons, hstep, heq]
      unfold splitMultiExampleBlock
      rw [hsplit]
      dsimp only
      rw [hfold]
      dsimp only
      simp only [List.map_nil, List.nil_append, List.singleton_append] at hJ
      have hres : (if c2 ≠ [] then
          e2 ++ [createExample c2 block t2 mk2 true (some (toString blockId))] else e2)
          = e2 ++ [createExample c2 block t2 mk2 true (some (toString blockId))] :=
        if_pos hne
      simp only [hres]
      rw [if_neg (by simp)]
      rw [show (e2 ++ [createExample c2 block t2 mk2 true (some (toString blockId))]).map
            (fun e => e.content)
          = e2.map (fun e => e.content) ++ [pyJoin "\n" c2] from by simp [createExample]]
      rw [hJ]
      rfl
  · intro hnone
    unfold splitMultiExampleBlock
    dsimp only
    rw [splitMEBStep_neutral_run cg cb block blockId (pySplitStr block.content "\n")
      [] [] none [] hnone]
    simp

/-- C4 witness: the amended statement evaluated on concrete blocks — the
marker-led tail `"# GOOD: a"` of the counterexample block is reconstructed
(its dropped prefix `"x"` is not), and a marker-free block passes through
unchanged. -/
theorem splitMultiExampleBlock_reconstruction_witness :
    pyJoin "\n" ((splitMultiExampleBlock goodCheck badCheck neutralDetect
        ⟨"x\n# GOOD: a", "", "", none⟩ 0).map (fun e => e.content))
      = pyJoin "\n" ("# GOOD: a" :: []) ∧
    (splitMultiExampleBlock goodCheck badCheck neutralDetect
        ⟨"plain\ncode", "", "", none⟩ 1).map (fun e => e.content)
      = [(⟨"plain\ncode", "", "", none⟩ : CodeBlock).content] :=
  ⟨(splitMultiExampleBlock_reconstruction goodCheck badCheck neutralDetect
      ⟨"x\n# GOOD: a", "", "", none⟩ 0).1 ["x"] "# GOOD: a" []
      (by decide) (by decide) (Or.inl (by decide)),
   (splitMultiExampleBlock_reconstruction goodCheck badCheck neutralDetect
      ⟨"plain\ncode", "", "", none⟩ 1).2.1 (by decide)⟩

/-! ## Code-example processing (`semantic_chunker.py` lines 266-372, 596-657) -/

/-- `str(example.example_type.value)` for the `str`-valued enum. -/
def exampleTypeValue : ExampleType → String
  | ExampleType.GOOD => "good"
  | ExampleType.BAD => "bad"
  | ExampleType.NEUTRAL => "neutral"
  | ExampleType.COMPARISON => "comparison"

/-- The full rendered content of a code example
(`content_parts` joined with `"\n"`, `semantic_chunker.py` lines 285-301):
optional context before, fence line with language, the code, closing fence,
optional context after.  Empty context strings are falsy in Python and are
skipped. -/
def buildFullContent (e : FullCodeExample) : String :=
  pyJoin "\n" ((if e.context_before ≠ "" then [e.context_before] else []) ++
    ["```" ++ e.language, e.content, "```"] ++
    (if e.context_after ≠ "" then [e.context_after] else []))

/-- The metadata built for a code example (`semantic_chunker.py` lines
310-319); `total_chunks` is written as `0` ("Will be updated later"). -/
def codeExampleMetadata (sourceFile : String) (e : FullCodeExample)
    (chunkIndex : Nat) : ChunkMetadata :=
  { source_file := sourceFile
    section_name := some e.section_slug
    has_code := true
    code_languages := if e.language ≠ "" then [e.language] else []
    example_types := [exampleTypeValue e.example_type]
    chunk_index := chunkIndex
    total_chunks := 0
    start_line := e.line_start }

/-- Does a line open a Python top-level declaration
(the lookahead `(?:def |class |async def )`). -/
def isDeclLine (l : String) : Bool :=
  strStarts l "def " || strStarts l "class " || strStarts l "async def "

/-- Group lines so that each declaration line starts a new group
(the effect of `re.split(r'\n(?=(?:def |class |async def ))', code)`
on the line list). -/
def declGroupsGo (cur : List String) : List String → List (List String)
  | [] => [cur]
  | l :: rest =>
    if isDeclLine l then cur :: declGroupsGo [l] rest
    else declGroupsGo (cur ++ [l]) rest

/-- `re.split(r'\n(?=(?:def |class |async def ))', code)`. -/
def pythonDeclSplit (code : String) : List String :=
  match pySplitStr code "\n" with
  | [] => []   -- unreachable: a split is never empty
  | l :: rest => (declGroupsGo [l] rest).map (pyJoin "\n")

/-- One line of the fallback line-accumulation splitter
(`semantic_chunker.py` lines 627-635).  The budget check
`current_tokens + line_tokens > max_tokens - 20` is Python integer
arithmetic (the right side may be negative). -/
def lineAccumStep (tc : TokenCounter) (cfg : ChunkingConfig)
    (st : List String × List String × Nat) (line : String) :
    List String × List String × Nat :=
  let (parts, cur, toks) := st
  let lineTokens := tc.count (line ++ "\n")
  let (parts1, cur1, toks1) :=
    if ((cfg.max_tokens : Int) - 20) < ((toks : Int) + (lineTokens : Int)) then
      if cur ≠ [] then (parts ++ [pyJoin "\n" cur], ([] : List String), 0)
      else (parts, cur, toks)
    else (parts, cur, toks)
  (parts1, cur1 ++ [line], toks1 + lineTokens)

/-- The fallback line-boundary splitter of `_split_large_code`
(non-Python languages). -/
def lineAccumSplit (tc : TokenCounter) (cfg : ChunkingConfig) (code : String) :
    List String :=
  let lines := pySplitStr code "\n"
  let st := lines.foldl (lineAccumStep tc cfg) ([], [], 0)
  let (parts, cur, _) := st
  if cur ≠ [] then parts ++ [pyJoin "\n" cur] else parts

/-- `SemanticChunker._split_large_code` (`semantic_chunker.py` lines
596-657). -/
def splitLargeCode (tc : TokenCounter) (genId : String → Nat → String)
    (cfg : ChunkingConfig) (code language : String) (md : ChunkMetadata)
    (startIndex : Nat) : List Chunk :=
  let parts :=
    if pyLower language = "python" ∨ pyLower language = "py" then pythonDeclSplit code
    else lineAccumSplit tc cfg code
  parts.enum.map (fun p =>
    let partContent := "```" ++ language ++ "\n" ++ p.2 ++ "\n```"
    { chunk_id := genId partContent (startIndex + p.1)
      content := partContent
      chunk_type := ChunkType.CODE
      token_count := tc.count partContent
      encoding_model := cfg.encoding_model
      metadata := { md with chunk_index := startIndex + p.1 } })

/-- `SemanticChunker._process_code_example` (`semantic_chunker.py` lines
266-372).  The oversized unsplittable path only prints a warning before
splitting; no exception is raised and no flag is recorded. -/
def processCodeExample (tc : TokenCounter) (genId : String → Nat → String)
    (cfg : ChunkingConfig) (sourceFile : String) (e : FullCodeExample)
    (chunkIndex : Nat) : List Chunk :=
  let fullContent := buildFullContent e
  let contentTokens := tc.count fullContent
  let md := codeExampleMetadata sourceFile e chunkIndex
  if contentTokens ≤ cfg.max_tokens then
    -- keep code example together
    [{ chunk_id := genId fullContent chunkIndex
       content := fullContent
       chunk_type := ChunkType.CODE
       token_count := contentTokens
       encoding_model := cfg.encoding_model
       metadata := md }]
  else
    let codeOnly := "```" ++ e.language ++ "\n" ++ e.content ++ "\n```"
    let codeTokens := tc.count codeOnly
    if codeTokens ≤ cfg.max_tokens then
      let chunk : Chunk :=
        { chunk_id := genId codeOnly chunkIndex
          content := codeOnly
          chunk_type := ChunkType.CODE
          token_count := codeTokens
          encoding_model := cfg.encoding_model
          metadata := md }
      if e.context_before ≠ "" then
        [chunk, createTextChunk tc genId cfg [e.context_before] sourceFile
          md.section_name (chunkIndex + 1)]
      else [chunk]
    else
      splitLargeCode tc genId cfg e.content e.language md chunkIndex

/-- Helper: the within-budget branch of `_process_code_example` emits
exactly the single unsplit code chunk. -/
theorem processCodeExample_fits_eq (tc : TokenCounter) (genId : String → Nat → String)
    (cfg : ChunkingConfig) (sourceFile : String) (e : FullCodeExample) (chunkIndex : Nat)
    (h : tc.count (buildFullContent e) ≤ cfg.max_tokens) :
    processCodeExample tc genId cfg sourceFile e chunkIndex =
      [{ chunk_id := genId (buildFullContent e) chunkIndex
         content := buildFullContent e
         chunk_type := ChunkType.CODE
         token_count := tc.count (buildFullContent e)
         encoding_model := cfg.encoding_model
         metadata := codeExampleMetadata sourceFile e chunkIndex }] := by
  unfold processCodeExample
  rw [if_pos h]

/-- A python string split is never the empty list. -/
theorem pySplitStr_ne_nil (s sep : String) : pySplitStr s sep ≠ [] := by
  unfold pySplitStr
  intro h
  exact pySplitGo_ne_nil sep.data (s.data.length + 1) [] s.data (by omega)
    (by simpa using h)

/-- The declaration grouping is never empty. -/
theorem declGroupsGo_ne_nil (cur : List String) : ∀ rest, declGroupsGo cur rest ≠ [] := by
  intro rest
  induction rest generalizing cur with
  | nil => simp [declGroupsGo]
  | cons l rest ih =>
    unfold declGroupsGo
    by_cases h : isDeclLine l = true
    · simp [h]
    · simp only [h]
      simp only [Bool.false_eq_true, if_false]
      exact ih (cur ++ [l])

/-- The python declaration split is never empty. -/
theorem pythonDeclSplit_ne_nil (code : String) : pythonDeclSplit code ≠ [] := by
  unfold pythonDeclSplit
  cases hs : pySplitStr code "\n" with
  | nil => exact absurd hs (pySplitStr_ne_nil code "\n")
  | cons l rest => simp [declGroupsGo_ne_nil]

/-- Each accumulation step leaves a non-empty open part. -/
theorem lineAccumStep_cur (tc : TokenCounter) (cfg : ChunkingConfig)
    (st : List String × List String × Nat) (line : String) :
    (lineAccumStep tc cfg st line).2.1 ≠ [] := by
  obtain ⟨parts, cur, toks⟩ := st
  unfold lineAccumStep
  split
  all_goals try split
  all_goals simp

/-- After folding at least one line, the open part is non-empty. -/
theorem lineAccum_foldl_cur (tc : TokenCounter) (cfg : ChunkingConfig) :
    ∀ (lines : List String) st, lines ≠ [] →
      ((lines.foldl (lineAccumStep tc cfg) st).2.1) ≠ [] := by
  intro lines
  induction lines with
  | nil => intro st h; exact absurd rfl h
  | cons l rest ih =>
    intro st _
    rw [List.foldl_cons]
    cases hr : rest with
    | nil => simpa using lineAccumStep_cur tc cfg st l
    | cons r rs =>
      rw [← hr]
      exact ih (lineAccumStep tc cfg st l) (by simp [hr])

/-- The fallback line splitter is never empty. -/
theorem lineAccumSplit_ne_nil (tc : TokenCounter) (cfg : ChunkingConfig) (code : String) :
    lineAccumSplit tc cfg code ≠ [] := by
  unfold lineAccumSplit
  have hcur := lineAccum_foldl_cur tc cfg (pySplitStr code "\n") ([], [], 0)
    (pySplitStr_ne_nil code "\n")
  rcases hfold : (pySplitStr code "\n").foldl (lineAccumStep tc cfg) ([], [], 0)
    with ⟨parts, cur, toks⟩
  rw [hfold] at hcur
  simp only [ne_eq] at hcur
  dsimp only
  rw [hfold]
  dsimp only
  rw [if_pos hcur]
  simp

/-- `_split_large_code` always emits at least one chunk. -/
theorem splitLargeCode_length_pos (tc : TokenCounter) (genId : String → Nat → String)
    (cfg : ChunkingConfig) (code language : String) (md : ChunkMetadata)
    (startIndex : Nat) :
    1 ≤ (splitLargeCode tc genId cfg code language md startIndex).length := by
  unfold splitLargeCode
  split
  · have := pythonDeclSplit_ne_nil code
    simp only [List.length_map, List.enum_length]
    cases hp : pythonDeclSplit code with
    | nil => exact absurd hp this
    | cons x xs => simp
  · have := lineAccumSplit_ne_nil tc cfg code
    simp only [List.length_map, List.enum_length]
    cases hp : lineAccumSplit tc cfg code with
    | nil => exact absurd hp this
    | cons x xs => simp

/-- C9: a code example whose rendered content (fence markers, language tag
and any attached context) fits the budget is emitted as exactly one chunk,
unsplit, with `chunk_type = code`. -/
theorem processCodeExample_one_code_chunk (tc : TokenCounter)
    (genId : String → Nat → String) (cfg : ChunkingConfig) (sourceFile : String)
    (e : FullCodeExample) (chunkIndex : Nat)
    (h : tc.count (buildFullContent e) ≤ cfg.max_tokens) :
    processCodeExample tc genId cfg sourceFile e chunkIndex =
      [{ chunk_id := genId (buildFullContent e) chunkIndex
         content := buildFullContent e
         chunk_type := ChunkType.CODE
         token_count := tc.count (buildFullContent e)
         encoding_model := cfg.encoding_model
         metadata := codeExampleMetadata sourceFile e chunkIndex }] :=
  processCodeExample_fits_eq tc genId cfg sourceFile e chunkIndex h

/-- A 5-token fenced code block (two-characters-per-token tokenizer on the
9-character rendering of code `x`). -/
def exSmall : FullCodeExample := { content := "x" }

/-- C9 witness: `exSmall` renders to 9 characters = 5 tokens under
`pairTok`, fits the default 512-token budget, and is emitted as exactly one
code chunk. -/
theorem processCodeExample_one_code_chunk_witness :
    (processCodeExample pairTok sampleGenId {} "doc.md" exSmall 0 =
      [{ chunk_id := sampleGenId (buildFullContent exSmall) 0
         content := buildFullContent exSmall
         chunk_type := ChunkType.CODE
         token_count := pairTok.count (buildFullContent exSmall)
         encoding_model := ({} : ChunkingConfig).encoding_model
         metadata := codeExampleMetadata "doc.md" exSmall 0 }]) ∧
    pairTok.count (buildFullContent exSmall) = 5 :=
  ⟨processCodeExample_one_code_chunk pairTok sampleGenId {} "doc.md" exSmall 0 (by decide),
   by decide⟩

/-- A valid tight configuration (budget 3) for the counterexample run. -/
def cfgTight : ChunkingConfig :=
  { max_tokens := 3, overlap_tokens := 1, min_chunk_tokens := 1 }

/-- C5 counterexample: the over-budget run (budget 3, forced through
`_split_large_code`) and the within-budget run (budget 512) of the same
atomic code example emit the *identical* chunk value — `Chunk` (modelled
field-for-field from `models.py` lines 52-96) has no `budget_exceeded`
field, and no recorded field distinguishes the two emissions, so no chunk
carries `budget_exceeded = true` in one and `= false` in the other. -/
theorem processCodeExample_no_budget_flag :
    processCodeExample charTok sampleGenId cfgTight "doc.md" exSmall 0 =
      processCodeExample charTok sampleGenId {} "doc.md" exSmall 0 ∧
    cfgTight.max_tokens < charTok.count (buildFullContent exSmall) ∧
    charTok.count (buildFullContent exSmall) ≤ ({} : ChunkingConfig).max_tokens ∧
    cfgTight.validateConfig = Except.ok true ∧
    ({} : ChunkingConfig).validateConfig = Except.ok true :=
  ⟨by decide, by decide, by decide, by rfl, by rfl⟩

/-- C5 (amended): an atomic unit that cannot be brought under budget is
still emitted as one or more chunks — never dropped, never fatal — and a
within-budget code block is emitted as exactly one code chunk; but no
`budget_exceeded` flag exists on chunks (the only report on the oversized
path is a printed warning). -/
theorem processCodeExample_always_emits (tc : TokenCounter)
    (genId : String → Nat → String) (cfg : ChunkingConfig) (sourceFile : String)
    (e : FullCodeExample) (chunkIndex : Nat) :
    1 ≤ (processCodeExample tc genId cfg sourceFile e chunkIndex).length ∧
    (tc.count (buildFullContent e) ≤ cfg.max_tokens →
      processCodeExample tc genId cfg sourceFile e chunkIndex =
        [{ chunk_id := genId (buildFullContent e) chunkIndex
           content := buildFullContent e
           chunk_type := ChunkType.CODE
           token_count := tc.count (buildFullContent e)
           encoding_model := cfg.encoding_model
           metadata := codeExampleMetadata sourceFile e chunkIndex }]) := by
  constructor
  · by_cases h1 : tc.count (buildFullContent e) ≤ cfg.max_tokens
    · rw [processCodeExample_fits_eq tc genId cfg sourceFile e chunkIndex h1]
      simp
    · unfold processCodeExample
      rw [if_neg h1]
      by_cases h2 : tc.count ("```" ++ e.language ++ "\n" ++ e.content ++ "\n```")
          ≤ cfg.max_tokens
      · rw [if_pos h2]
        split
        · simp
        · simp
      · rw [if_neg h2]
        exact splitLargeCode_length_pos tc genId cfg e.content e.language
          (codeExampleMetadata sourceFile e chunkIndex) chunkIndex
  · exact processCodeExample_fits_eq tc genId cfg sourceFile e chunkIndex

/-- C5 witness: the amended statement on the within-budget run. -/
theorem processCodeExample_always_emits_witness :
    1 ≤ (processCodeExample pairTok sampleGenId {} "doc.md" exSmall 0).length ∧
    processCodeExample pairTok sampleGenId {} "doc.md" exSmall 0 =
      [{ chunk_id := sampleGenId (buildFullContent exSmall) 0
         content := buildFullContent exSmall
         chunk_type := ChunkType.CODE
         token_count := pairTok.count (buildFullContent exSmall)
         encoding_model := ({} : ChunkingConfig).encoding_model
         metadata := codeExampleMetadata "doc.md" exSmall 0 }] :=
  ⟨(processCodeExample_always_emits pairTok sampleGenId {} "doc.md" exSmall 0).1,
   (processCodeExample_always_emits pairTok sampleGenId {} "doc.md" exSmall 0).2 (by decide)⟩
